import Mathlib

/-!
Verification development for the mn-cal venue-availability service.

Shallow embedding of the repository's core logic:
  app/calendar.py  — token provider (get_access_token), paginated Graph
                     event fetch (fetch_calendar_events_graph), and the
                     per-venue wrapper (get_booked_dates);
  app/main.py      — venue cache, refresh loop, and the weekend
                     availability projection (get_weekend_days_for_year).

Modelling conventions:
  * Python datetime.date values are modelled by their proleptic-Gregorian
    ordinals (date.toordinal), so date comparison is Nat comparison and
    timedelta(days=1) is ordinal successor.  Date.toOrdinal below computes
    the same ordinal as CPython's date.toordinal, and pyWeekday the same
    weekday number as date.weekday (Monday = 0).
  * The while-loops of the source are modelled by structurally recursive
    functions with an explicit fuel argument; callers pass exactly the
    number of remaining iterations, so the Lean function computes exactly
    the loop's result and remains kernel-reducible.
  * Network interaction is modelled by passing the provider's responses as
    explicit inputs: a TokenNet value for the token endpoint, and a list
    of PageResult values for the successive pages that following the
    server's next-page links would return.  Parsed event dateTime strings
    are modelled as Option Nat ordinals, where none stands for a missing
    or empty dateTime string (both of which the source treats alike).
  * Functions that the source lets touch the network return a Bool flag
    recording whether any network call was performed.
-/

namespace MnCal

/-- Calendar date given as year/month/day, mirroring Python datetime.date. -/
structure Date where
  y : Nat
  m : Nat
  d : Nat
deriving DecidableEq

/-- Gregorian leap-year rule, as implemented by Python's datetime module. -/
def isLeap (y : Nat) : Bool :=
  (y % 4 == 0 && y % 100 != 0) || y % 400 == 0

/-- Number of days in a month of a given year (Gregorian calendar). -/
def daysInMonth (y m : Nat) : Nat :=
  if m = 2 then (if isLeap y then 29 else 28)
  else if m = 4 ∨ m = 6 ∨ m = 9 ∨ m = 11 then 30
  else 31

/-- Days in year y that precede month m (0 for January). -/
def daysBeforeMonth (y : Nat) : Nat → Nat
  | 0 => 0
  | 1 => 0
  | m + 2 => daysBeforeMonth y (m + 1) + daysInMonth y (m + 1)

/-- Days before January 1 of year y, counting from ordinal 0 at 1 BC. -/
def daysBeforeYear (y : Nat) : Nat :=
  (y - 1) * 365 + (y - 1) / 4 - (y - 1) / 100 + (y - 1) / 400

/-- Proleptic-Gregorian ordinal of a date; agrees with Python's
date.toordinal (ordinal 1 is 0001-01-01). -/
def Date.toOrdinal (dt : Date) : Nat :=
  daysBeforeYear dt.y + daysBeforeMonth dt.y dt.m + dt.d

/-- Weekday of an ordinal as Python's date.weekday returns it:
Monday = 0, ..., Sunday = 6 (ordinal 1, 0001-01-01, is a Monday). -/
def pyWeekday (o : Nat) : Nat := (o - 1) % 7

/-- The year/month/day triple denotes an actual calendar date. -/
def ValidDate (dt : Date) : Prop :=
  1 ≤ dt.y ∧ 1 ≤ dt.m ∧ dt.m ≤ 12 ∧ 1 ≤ dt.d ∧ dt.d ≤ daysInMonth dt.y dt.m

instance (dt : Date) : Decidable (ValidDate dt) := by
  unfold ValidDate
  infer_instance

/-! ## app/calendar.py — token provider -/

/-- Environment-derived configuration, as assembled by _get_config:
MS_CLIENT_ID, MS_CLIENT_SECRET, MS_REFRESH_TOKEN, CALENDAR_ID_GARDEN,
CALENDAR_ID_BALLROOM (all default to the empty string when unset). -/
structure TokenConfig where
  clientId : String
  clientSecret : String
  refreshToken : String
  calGarden : String
  calBallroom : String
deriving DecidableEq

/-- The module-global token cache of calendar.py: _cached_token and
_token_expires_at.  Expiry instants are modelled as integer seconds. -/
structure TokenState where
  cachedToken : Option String
  tokenExpiresAt : Option Int
deriving DecidableEq

/-- Response of the OAuth token endpoint, as observed by get_access_token.
resp carries the HTTP status, the access_token field when present in the
JSON body (none models a missing key, whose lookup raises and is caught),
and the optional expires_in.  netFail models an exception raised by the
request itself. -/
inductive TokenNet where
  | resp (status : Nat) (accessToken : Option String) (expiresIn : Option Int)
  | netFail
deriving DecidableEq

/-- The cached-token test of calendar.py lines 46-47: the Python truthiness
check on _cached_token and _token_expires_at followed by the comparison
now < expiry - 5 minutes. -/
def tokenCacheFresh (st : TokenState) (now : Int) : Bool :=
  match st.cachedToken, st.tokenExpiresAt with
  | some t, some exp => t ≠ "" && decide (now < exp - 300)
  | _, _ => false

/-- Embedding of get_access_token (calendar.py lines 36-74).  Returns the
token (none when the source returns None), the new token-cache state, and
whether a token-endpoint network call was made. -/
def get_access_token (cfg : TokenConfig) (st : TokenState) (now : Int)
    (net : TokenNet) : Option String × TokenState × Bool :=
  if cfg.refreshToken = "" then (none, st, false)
  else if tokenCacheFresh st now then (st.cachedToken, st, false)
  else
    match net with
    | .netFail => (none, st, true)
    | .resp status tok expIn =>
      if status ≠ 200 then (none, st, true)
      else
        match tok with
        | none => (none, st, true)
        | some t => (some t, ⟨some t, some (now + expIn.getD 3600)⟩, true)

/-! ## app/calendar.py — event fetch -/

/-- One event of a Graph response page, restricted to the fields the source
reads.  startD and endD are the parsed dates of start.dateTime and
end.dateTime; none models a missing or empty dateTime string. -/
structure Event where
  isAllDay : Bool
  startD : Option Nat
  endD : Option Nat
deriving DecidableEq

/-- One page of the paginated events query: either a successful response
with its events and whether an @odata.nextLink is present, or a failed
response (non-200 status, which makes the loop break). -/
inductive PageResult where
  | ok (events : List Event) (hasNextLink : Bool)
  | err
deriving DecidableEq

/-- Venue-name table of calendar.py lines 10-13 (the CALENDARS dict keys). -/
def CALENDARS : List String := ["garden", "ballroom"]

def GRAPH_API_BASE : String := "https://graph.microsoft.com/v1.0"

/-- URL selection of calendar.py lines 86-89: a venue-specific calendar
when the handle is non-empty (Python truthiness), else the account's
default calendar. -/
def graphEventsUrl (calendarId : String) : String :=
  if calendarId ≠ "" then
    GRAPH_API_BASE ++ "/me/calendars/" ++ calendarId ++ "/events"
  else
    GRAPH_API_BASE ++ "/me/calendar/events"

/-- Inner date loop of one all-day event (calendar.py lines 131-135):
walk current from the event start while current < event end, adding
current to the set when start_date ≤ current ≤ end_date.  fuel is the
remaining iteration count; callers pass eventEnd - current. -/
def addEventDates (fromD toD eventEnd : Nat) : Nat → Nat → Finset Nat → Finset Nat
  | 0, _, acc => acc
  | fuel + 1, current, acc =>
    if current < eventEnd then
      addEventDates fromD toD eventEnd fuel (current + 1)
        (if fromD ≤ current ∧ current ≤ toD then insert current acc else acc)
    else acc

/-- Per-event step of the page loop (calendar.py lines 114-135): skip
events not flagged all-day, skip all-day events with a missing or empty
start or end dateTime, otherwise add the event's dates. -/
def accumEvent (fromD toD : Nat) (acc : Finset Nat) (ev : Event) : Finset Nat :=
  if !ev.isAllDay then acc
  else
    match ev.startD, ev.endD with
    | some s, some e => addEventDates fromD toD e (e - s) s acc
    | _, _ => acc

/-- Folding one page's event list into the accumulated set. -/
def processEvents (fromD toD : Nat) (acc : Finset Nat) (evs : List Event) : Finset Nat :=
  evs.foldl (accumEvent fromD toD) acc

/-- Pagination loop of calendar.py lines 99-138: process the stream of
page responses in order; a non-200 page breaks the loop, a page without
a next link ends it; either way the set accumulated so far is kept. -/
def fetchLoop (fromD toD : Nat) : List PageResult → Finset Nat → Finset Nat
  | [], acc => acc
  | .err :: _, acc => acc
  | .ok evs nxt :: rest, acc =>
    let acc2 := processEvents fromD toD acc evs
    if nxt then fetchLoop fromD toD rest acc2 else acc2

/-- The events the pagination loop actually reads: all events of the
leading successful pages, stopping at the first error page or at the
first page without a next link. -/
def processedEvents : List PageResult → List Event
  | [] => []
  | .err :: _ => []
  | .ok evs nxt :: rest => evs ++ (if nxt then processedEvents rest else [])

/-- Python truthiness of the returned token (fetch bails out on None and
on an empty string alike). -/
def tokenTruthy : Option String → Bool
  | none => false
  | some t => t ≠ ""

/-- Embedding of fetch_calendar_events_graph (calendar.py lines 77-143).
Returns the booked-date set and whether any network call happened. -/
def fetch_calendar_events_graph (calendarId : String) (startDate endDate : Nat)
    (cfg : TokenConfig) (st : TokenState) (now : Int) (net : TokenNet)
    (pages : List PageResult) : Finset Nat × Bool :=
  let tk := get_access_token cfg st now net
  if tokenTruthy tk.1 then (fetchLoop startDate endDate pages ∅, true)
  else (∅, tk.2.2)

/-- Embedding of get_booked_dates (calendar.py lines 146-164): reject
unknown venues, refuse to fetch without a configured refresh token, and
otherwise fetch the window from today to today + months_ahead * 30 days. -/
def calendarIdFor (cfg : TokenConfig) (venue : String) : String :=
  if venue = "garden" then cfg.calGarden
  else if venue = "ballroom" then cfg.calBallroom
  else ""

def get_booked_dates (venue : String) (monthsAhead : Nat) (today : Nat)
    (cfg : TokenConfig) (st : TokenState) (now : Int) (net : TokenNet)
    (pages : List PageResult) : Finset Nat × Bool :=
  if venue ∈ CALENDARS then
    let endDate := today + monthsAhead * 30
    if cfg.refreshToken = "" then (∅, false)
    else fetch_calendar_events_graph (calendarIdFor cfg venue) today endDate
      cfg st now net pages
  else (∅, false)

/-- The months_ahead argument refresh_cache passes to get_booked_dates
(main.py line 35). -/
def refreshMonthsAhead : Nat := 48

/-- Modelled from the spec: the calendar date n months after a date, with
calendar-month arithmetic (year carry, day clamped to the target month's
length).  The source has no such function — its window arithmetic is
months_ahead * 30 days — so this definition follows the spec's phrase
"48 months from the current date" and exists only to be compared with the
source's computation. -/
def dateAfterMonths (dt : Date) (n : Nat) : Date :=
  let tm := dt.m - 1 + n
  let y := dt.y + tm / 12
  let m := tm % 12 + 1
  ⟨y, m, min dt.d (daysInMonth y m)⟩

/-! ## app/main.py — weekend availability projection -/

/-- Venue lease end dates of main.py lines 19-21, as ordinals. -/
def VENUE_LEASE_END (venue : String) : Option Nat :=
  if venue = "ballroom" then some (Date.toOrdinal ⟨2030, 3, 31⟩) else none

/-- One element of the days list built by get_weekend_days_for_year. -/
structure DayRecord where
  date : Nat
  day : String
  available : Bool
deriving DecidableEq

/-- Day-name lookup table of main.py line 94. -/
def dayNames : List String := ["", "", "", "", "friday", "saturday", "sunday"]

/-- The record appended for one weekend day (main.py lines 95-99). -/
def mkRecord (booked : Finset Nat) (d : Nat) : DayRecord :=
  ⟨d, dayNames.getD (pyWeekday d) "", decide (d ∉ booked)⟩

/-- Scan-window start of main.py lines 72-76: January 1 of the year,
replaced by today when the year is the current year. -/
def scanStart (year : Nat) (today : Date) : Nat :=
  if year = today.y then today.toOrdinal else Date.toOrdinal ⟨year, 1, 1⟩

/-- Scan-window end of main.py lines 73-81: December 31 of the year,
clamped down to the venue's lease end when one exists and is earlier. -/
def scanEnd (venue : String) (year : Nat) : Nat :=
  let dec31 := Date.toOrdinal ⟨year, 12, 31⟩
  match VENUE_LEASE_END venue with
  | some le => if dec31 > le then le else dec31
  | none => dec31

/-- Day walk of main.py lines 90-100: while current ≤ end_date, append a
record for Friday/Saturday/Sunday days.  fuel is the remaining iteration
count; callers pass endD + 1 - current. -/
def weekendLoop (booked : Finset Nat) (endD : Nat) : Nat → Nat → List DayRecord
  | 0, _ => []
  | fuel + 1, current =>
    if current ≤ endD then
      (if pyWeekday current = 4 ∨ pyWeekday current = 5 ∨ pyWeekday current = 6 then
        [mkRecord booked current] else [])
        ++ weekendLoop booked endD fuel (current + 1)
    else []

/-- Embedding of get_weekend_days_for_year (main.py lines 69-102).  The
booked-date set is passed in place of the cache read of line 84. -/
def get_weekend_days_for_year (venue : String) (year : Nat) (today : Date)
    (bookedDates : Finset Nat) : List DayRecord :=
  let start_date := scanStart year today
  let end_date := scanEnd venue year
  match VENUE_LEASE_END venue with
  | some le =>
    if start_date > le then []
    else weekendLoop bookedDates end_date (end_date + 1 - start_date) start_date
  | none => weekendLoop bookedDates end_date (end_date + 1 - start_date) start_date

/-! ## app/main.py — venue cache and refresh

The cache _cache (main.py lines 24-27) maps each venue to a dict holding
booked_dates and last_updated.  refresh_cache (lines 32-37) overwrites
both fields of one venue after awaiting the fetch; the two assignments of
lines 35-36 contain no await, so under asyncio's cooperative scheduling no
other coroutine — in particular no request handler — can run between
them, and they form one atomic step.  The transition system below models
exactly that: a step replaces one venue's whole entry.  Values are tagged
with the refresh cycle that wrote them (0 and none denote the initial
state), so that pairing of the two fields across cycles is expressible. -/

structure CacheEntry where
  booked : Finset Nat
  bookedCycle : Nat
  lastUpdated : Option Nat
deriving DecidableEq

/-- Initial cache of main.py lines 24-27: every venue starts with an
empty set and last_updated = None. -/
def initCache : String → CacheEntry := fun _ => ⟨∅, 0, none⟩

/-- One observable transition of the cache: refresh_cache lines 35-36 for
one venue, writing the fetched set and the cycle's timestamp together
(no suspension point separates the two assignments). -/
inductive CacheStep : (String → CacheEntry) → (String → CacheEntry) → Prop where
  | refreshVenue (c : String → CacheEntry) (venue : String) (cycle : Nat)
      (fetched : Finset Nat) (hcyc : 0 < cycle) :
      CacheStep c (fun v => if v = venue then ⟨fetched, cycle, some cycle⟩ else c v)

/-- Cache states reachable from process start via refresh steps. -/
def CacheReachable (c : String → CacheEntry) : Prop :=
  Relation.ReflTransGen CacheStep initCache c

/-- A venue entry is consistent when its timestamp stems from the same
cycle as its booked set, or both are still initial. -/
def entryConsistent (e : CacheEntry) : Prop :=
  e.lastUpdated = some e.bookedCycle ∨
    (e.lastUpdated = none ∧ e.bookedCycle = 0 ∧ e.booked = ∅)

/-- A date d is one that event ev contributes to the fetched set for the
window fromD..toD: the event is all-day with parsed start s and end e,
s ≤ d < e, and d lies in the window. -/
def evContrib (fromD toD : Nat) (ev : Event) (d : Nat) : Prop :=
  ev.isAllDay = true ∧ ∃ s e, ev.startD = some s ∧ ev.endD = some e ∧
    s ≤ d ∧ d < e ∧ fromD ≤ d ∧ d ≤ toD

/-! ## Characterization lemmas for the fetch loops -/

theorem mem_addEventDates (fromD toD eventEnd : Nat) :
    ∀ (fuel current : Nat) (acc : Finset Nat) (d : Nat),
      eventEnd - current ≤ fuel →
      (d ∈ addEventDates fromD toD eventEnd fuel current acc ↔
        d ∈ acc ∨ (current ≤ d ∧ d < eventEnd ∧ fromD ≤ d ∧ d ≤ toD)) := by
  intro fuel
  induction fuel with
  | zero =>
    intro current acc d hf
    rw [addEventDates]
    constructor
    · exact Or.inl
    · rintro (h1 | h2)
      · exact h1
      · omega
  | succ fuel ih =>
    intro current acc d hf
    rw [addEventDates]
    by_cases h : current < eventEnd
    · rw [if_pos h, ih _ _ _ (by omega)]
      by_cases hw : fromD ≤ current ∧ current ≤ toD
      · rw [if_pos hw, Finset.mem_insert]
        by_cases hd : d ∈ acc <;> simp [hd] <;> omega
      · rw [if_neg hw]
        by_cases hd : d ∈ acc <;> simp [hd] <;> omega
    · rw [if_neg h]
      constructor
      · exact Or.inl
      · rintro (h1 | h2)
        · exact h1
        · omega

theorem mem_accumEvent (fromD toD : Nat) (acc : Finset Nat) (ev : Event) (d : Nat) :
    d ∈ accumEvent fromD toD acc ev ↔ d ∈ acc ∨ evContrib fromD toD ev d := by
  unfold accumEvent evContrib
  cases hall : ev.isAllDay with
  | false => simp
  | true =>
    cases hs : ev.startD with
    | none => simp
    | some s =>
      cases he : ev.endD with
      | none => simp
      | some e =>
        simp only [Bool.not_true, Bool.false_eq_true, if_false,
          mem_addEventDates fromD toD e (e - s) s acc d (le_refl _),
          Option.some.injEq, true_and]
        constructor
        · rintro (h1 | h2)
          · exact Or.inl h1
          · exact Or.inr ⟨s, e, rfl, rfl, h2.1, h2.2.1, h2.2.2.1, h2.2.2.2⟩
        · rintro (h1 | ⟨s2, e2, rfl2, rfl3, h2⟩)
          · exact Or.inl h1
          · cases rfl2
            cases rfl3
            exact Or.inr ⟨h2.1, h2.2.1, h2.2.2.1, h2.2.2.2⟩

theorem mem_processEvents (fromD toD : Nat) :
    ∀ (evs : List Event) (acc : Finset Nat) (d : Nat),
      d ∈ processEvents fromD toD acc evs ↔
        d ∈ acc ∨ ∃ ev ∈ evs, evContrib fromD toD ev d := by
  intro evs
  induction evs with
  | nil => simp [processEvents]
  | cons ev evs ih =>
    intro acc d
    show d ∈ processEvents fromD toD (accumEvent fromD toD acc ev) evs ↔ _
    rw [ih, mem_accumEvent]
    simp only [List.mem_cons]
    constructor
    · rintro ((h1 | h2) | ⟨ev2, hm, hc⟩)
      · exact Or.inl h1
      · exact Or.inr ⟨ev, Or.inl rfl, h2⟩
      · exact Or.inr ⟨ev2, Or.inr hm, hc⟩
    · rintro (h1 | ⟨ev2, (rfl | hm), hc⟩)
      · exact Or.inl (Or.inl h1)
      · exact Or.inl (Or.inr hc)
      · exact Or.inr ⟨ev2, hm, hc⟩

theorem mem_fetchLoop (fromD toD : Nat) :
    ∀ (pages : List PageResult) (acc : Finset Nat) (d : Nat),
      d ∈ fetchLoop fromD toD pages acc ↔
        d ∈ acc ∨ ∃ ev ∈ processedEvents pages, evContrib fromD toD ev d := by
  intro pages
  induction pages with
  | nil => simp [fetchLoop, processedEvents]
  | cons p rest ih =>
    intro acc d
    cases p with
    | err => simp [fetchLoop, processedEvents]
    | ok evs nxt =>
      cases nxt with
      | false =>
        show d ∈ processEvents fromD toD acc evs ↔ _
        rw [mem_processEvents]
        simp [processedEvents]
      | true =>
        show d ∈ fetchLoop fromD toD rest (processEvents fromD toD acc evs) ↔ _
        rw [ih, mem_processEvents]
        simp only [processedEvents, if_true, List.mem_append]
        constructor
        · rintro ((h1 | ⟨ev, hm, hc⟩) | ⟨ev, hm, hc⟩)
          · exact Or.inl h1
          · exact Or.inr ⟨ev, Or.inl hm, hc⟩
          · exact Or.inr ⟨ev, Or.inr hm, hc⟩
        · rintro (h1 | ⟨ev, (hm | hm), hc⟩)
          · exact Or.inl (Or.inl h1)
          · exact Or.inl (Or.inr ⟨ev, hm, hc⟩)
          · exact Or.inr ⟨ev, hm, hc⟩

theorem mem_processedEvents_of_page (evs : List Event) (nxt : Bool)
    (rest : List PageResult) (ev : Event) (hev : ev ∈ evs) :
    ∀ pre : List (List Event),
      ev ∈ processedEvents
        (pre.map (fun p => PageResult.ok p true) ++ PageResult.ok evs nxt :: rest) := by
  intro pre
  induction pre with
  | nil =>
    show ev ∈ evs ++ _
    exact List.mem_append_left _ hev
  | cons p pre ih =>
    show ev ∈ p ++ _
    refine List.mem_append_right _ ?_
    simpa using ih

/-! ## Characterization lemma for the projection day walk -/

theorem mem_weekendLoop (booked : Finset Nat) (endD : Nat) :
    ∀ (fuel current : Nat) (r : DayRecord), endD + 1 - current ≤ fuel →
      (r ∈ weekendLoop booked endD fuel current ↔
        ∃ d, current ≤ d ∧ d ≤ endD ∧
          (pyWeekday d = 4 ∨ pyWeekday d = 5 ∨ pyWeekday d = 6) ∧
          r = mkRecord booked d) := by
  intro fuel
  induction fuel with
  | zero =>
    intro current r hf
    rw [weekendLoop]
    simp only [List.not_mem_nil, false_iff]
    rintro ⟨d, h1, h2, _, _⟩
    omega
  | succ fuel ih =>
    intro current r hf
    rw [weekendLoop]
    by_cases h : current ≤ endD
    · rw [if_pos h]
      rw [List.mem_append, ih _ _ (by omega)]
      by_cases hw : pyWeekday current = 4 ∨ pyWeekday current = 5 ∨ pyWeekday current = 6
      · rw [if_pos hw]
        simp only [List.mem_singleton]
        constructor
        · rintro (rfl | ⟨d, hd1, hd2, hd3, hd4⟩)
          · exact ⟨current, le_refl _, h, hw, rfl⟩
          · exact ⟨d, by omega, hd2, hd3, hd4⟩
        · rintro ⟨d, hd1, hd2, hd3, hd4⟩
          rcases Nat.eq_or_lt_of_le hd1 with rfl | hlt
          · exact Or.inl hd4
          · exact Or.inr ⟨d, by omega, hd2, hd3, hd4⟩
      · rw [if_neg hw]
        simp only [List.not_mem_nil, false_or]
        constructor
        · rintro ⟨d, hd1, hd2, hd3, hd4⟩
          exact ⟨d, by omega, hd2, hd3, hd4⟩
        · rintro ⟨d, hd1, hd2, hd3, hd4⟩
          rcases Nat.eq_or_lt_of_le hd1 with rfl | hlt
          · exact absurd hd3 hw
          · exact ⟨d, by omega, hd2, hd3, hd4⟩
    · rw [if_neg h]
      simp only [List.not_mem_nil, false_iff]
      rintro ⟨d, h1, h2, _, _⟩
      omega

/-- The loop returns nothing when the (clamped) window is empty. -/
theorem weekendLoop_empty_of_gt (booked : Finset Nat) (endD current : Nat)
    (h : current > endD) :
    weekendLoop booked endD (endD + 1 - current) current = [] := by
  have h0 : endD + 1 - current = 0 := by omega
  rw [h0, weekendLoop]

/-- Ordinal lower bound: a valid date is not earlier than January 1 of
its own year. -/
theorem jan1_le_toOrdinal (dt : Date) (hv : ValidDate dt) :
    Date.toOrdinal ⟨dt.y, 1, 1⟩ ≤ dt.toOrdinal := by
  obtain ⟨_, _, _, hd, _⟩ := hv
  show daysBeforeYear dt.y + daysBeforeMonth dt.y 1 + 1 ≤
    daysBeforeYear dt.y + daysBeforeMonth dt.y dt.m + dt.d
  have h1 : daysBeforeMonth dt.y 1 = 0 := rfl
  omega

/-! ## Claim theorems -/

/-- C4 counterexample: the cached-credential fast path is not
unconditional.  With no refresh token configured but a cached credential
whose expiry (10000 s) is more than 5 minutes past now (0 s),
get_access_token returns None instead of the cached credential, because
the missing-configuration check of calendar.py line 41 runs before the
cache check of lines 46-48. -/
theorem token_cache_reuse_cex :
    tokenCacheFresh ⟨some "tok", some 10000⟩ 0 = true ∧
    (get_access_token ⟨"", "", "", "", ""⟩ ⟨some "tok", some 10000⟩ 0
        TokenNet.netFail).1 = none := by
  decide

/-- C4 (amended): provided a refresh secret is configured, whenever
acquireToken is called while a cached credential exists whose stored
expiry is more than 5 minutes in the future, it returns that cached
credential unchanged and performs no token-exchange network call, and a
second such call (with no intervening failure) again performs no
exchange. -/
theorem token_cache_reuse (cfg : TokenConfig) (st : TokenState)
    (now now2 : Int) (net net2 : TokenNet) (t : String) (exp : Int)
    (hcfg : cfg.refreshToken ≠ "") (ht : st.cachedToken = some t)
    (htne : t ≠ "") (hexp : st.tokenExpiresAt = some exp)
    (hnow : now < exp - 300) (hnow2 : now2 < exp - 300) :
    get_access_token cfg st now net = (some t, st, false) ∧
    get_access_token cfg ((get_access_token cfg st now net).2.1) now2 net2 =
      (some t, st, false) := by
  have hfresh : ∀ n : Int, n < exp - 300 → tokenCacheFresh st n = true := by
    intro n hn
    unfold tokenCacheFresh
    rw [ht, hexp]
    simp [htne, hn]
  have h1 : get_access_token cfg st now net = (some t, st, false) := by
    unfold get_access_token
    rw [if_neg hcfg, if_pos (hfresh now hnow), ht]
  refine ⟨h1, ?_⟩
  rw [h1]
  show get_access_token cfg st now2 net2 = (some t, st, false)
  unfold get_access_token
  rw [if_neg hcfg, if_pos (hfresh now2 hnow2), ht]

/-- C4 witness: concrete instance of the amended cached-reuse theorem. -/
theorem token_cache_reuse_witness :
    (("rt" : String) ≠ "") ∧
    get_access_token ⟨"a", "b", "rt", "", ""⟩ ⟨some "tok", some 10000⟩ 0
        TokenNet.netFail = (some "tok", ⟨some "tok", some 10000⟩, false) ∧
    get_access_token ⟨"a", "b", "rt", "", ""⟩
        ((get_access_token ⟨"a", "b", "rt", "", ""⟩ ⟨some "tok", some 10000⟩ 0
          TokenNet.netFail).2.1) 100 TokenNet.netFail =
      (some "tok", ⟨some "tok", some 10000⟩, false) := by
  refine ⟨by decide, ?_⟩
  exact token_cache_reuse ⟨"a", "b", "rt", "", ""⟩ ⟨some "tok", some 10000⟩ 0 100
    TokenNet.netFail TokenNet.netFail "tok" 10000 (by decide) rfl (by decide) rfl
    (by decide) (by decide)

/-- C5: acquireToken is total and fail-soft.  With no refresh secret it
returns None without a network call; when an exchange is attempted (token
not configured away, cache not fresh) and the exchange fails — network
exception, non-200 status, or missing access_token field — it returns
None and leaves the cached credential unchanged.  And get_booked_dates
with no refresh token configured returns the empty set with no network
call. -/
theorem acquire_token_fail_soft :
    (∀ (cfg : TokenConfig) (st : TokenState) (now : Int) (net : TokenNet),
      cfg.refreshToken = "" →
      get_access_token cfg st now net = (none, st, false)) ∧
    (∀ (cfg : TokenConfig) (st : TokenState) (now : Int) (net : TokenNet),
      tokenCacheFresh st now = false →
      (net = TokenNet.netFail ∨
        ∃ status tok expIn, net = TokenNet.resp status tok expIn ∧
          (status ≠ 200 ∨ tok = none)) →
      (get_access_token cfg st now net).1 = none ∧
        (get_access_token cfg st now net).2.1 = st) ∧
    (∀ (venue : String) (monthsAhead today : Nat) (cfg : TokenConfig)
        (st : TokenState) (now : Int) (net : TokenNet) (pages : List PageResult),
      cfg.refreshToken = "" →
      get_booked_dates venue monthsAhead today cfg st now net pages = (∅, false)) := by
  refine ⟨?_, ?_, ?_⟩
  · intro cfg st now net h
    unfold get_access_token
    rw [if_pos h]
  · intro cfg st now net hfresh hnet
    by_cases hcfg : cfg.refreshToken = ""
    · unfold get_access_token
      rw [if_pos hcfg]
      exact ⟨rfl, rfl⟩
    · unfold get_access_token
      rw [if_neg hcfg, if_neg (by simp [hfresh])]
      rcases hnet with rfl | ⟨status, tok, expIn, rfl, hbad⟩
      · exact ⟨rfl, rfl⟩
      · rcases hbad with hst | rfl
        · refine ⟨?_, ?_⟩ <;> simp [hst]
        · by_cases hst : status ≠ 200
          · refine ⟨?_, ?_⟩ <;> simp [hst]
          · refine ⟨?_, ?_⟩ <;> simp [hst]
  · intro venue monthsAhead today cfg st now net pages h
    by_cases hv : venue ∈ CALENDARS
    · unfold get_booked_dates
      rw [if_pos hv]
      simp only []
      rw [if_pos h]
    · unfold get_booked_dates
      rw [if_neg hv]

/-- C5 witness: concrete no-refresh-token and failed-exchange instances. -/
theorem acquire_token_fail_soft_witness :
    get_access_token ⟨"a", "b", "", "", ""⟩ ⟨none, none⟩ 0 TokenNet.netFail =
      (none, ⟨none, none⟩, false) ∧
    (get_access_token ⟨"a", "b", "rt", "", ""⟩ ⟨none, none⟩ 0
        (TokenNet.resp 500 none none)).1 = none ∧
    get_booked_dates "garden" 48 700000 ⟨"a", "b", "", "", ""⟩ ⟨none, none⟩ 0
        TokenNet.netFail [] = (∅, false) := by
  refine ⟨acquire_token_fail_soft.1 _ _ _ _ rfl, ?_, ?_⟩
  · exact (acquire_token_fail_soft.2.1 ⟨"a", "b", "rt", "", ""⟩ ⟨none, none⟩ 0
      (TokenNet.resp 500 none none) rfl
      (Or.inr ⟨500, none, none, rfl, Or.inl (by decide)⟩)).1
  · exact acquire_token_fail_soft.2.2 "garden" 48 700000 _ _ 0 TokenNet.netFail [] rfl

/-- C6: an HTTP error mid-pagination stops the loop and the fetch returns
exactly the set accumulated from the pages successfully read before the
error — the result equals the fold of the per-page processing over the
leading successful pages, with the failing page and everything after it
contributing nothing, and no error escapes. -/
theorem pagination_partial_result (fromD toD : Nat) (pre : List (List Event))
    (rest : List PageResult) (acc : Finset Nat) :
    fetchLoop fromD toD
        (pre.map (fun p => PageResult.ok p true) ++ PageResult.err :: rest) acc =
      pre.foldl (processEvents fromD toD) acc := by
  induction pre generalizing acc with
  | nil => rfl
  | cons p pre ih =>
    simp only [List.map_cons, List.cons_append, fetchLoop, if_true, List.foldl_cons]
    exact ih _

/-- C9: any cache state reachable from process start by whole-entry
refresh writes (the two assignments of main.py lines 35-36, which contain
no await and therefore run without interleaving under cooperative
scheduling) shows every venue's booked set paired with the timestamp of
the same refresh cycle, or the untouched initial entry — no torn read is
observable. -/
theorem cache_consistent_read (c : String → CacheEntry)
    (h : CacheReachable c) (v : String) : entryConsistent (c v) := by
  induction h with
  | refl => exact Or.inr ⟨rfl, rfl, rfl⟩
  | tail hsteps hstep ih =>
    cases hstep with
    | refreshVenue venue cycle fetched hcyc =>
      dsimp only
      split
      · exact Or.inl rfl
      · exact ih

/-- C9 witness: the state after one refresh of the garden venue is
reachable, and its garden entry is consistent. -/
theorem cache_consistent_read_witness :
    CacheReachable
      (fun v => if v = "garden" then (⟨{5}, 1, some 1⟩ : CacheEntry) else initCache v) ∧
    entryConsistent
      ((fun v => if v = "garden" then (⟨{5}, 1, some 1⟩ : CacheEntry) else initCache v)
        "garden") := by
  have hr : CacheReachable
      (fun v => if v = "garden" then (⟨{5}, 1, some 1⟩ : CacheEntry) else initCache v) :=
    Relation.ReflTransGen.tail Relation.ReflTransGen.refl
      (CacheStep.refreshVenue initCache "garden" 1 {5} (by decide))
  exact ⟨hr, cache_consistent_read _ hr "garden"⟩

/-- C1 counterexample: the claimed equivalence is quantified over every
calendar date d, but with two adjacent all-day events on one fetched page
— one spanning days 10 to 12 and one spanning 12 to 14, window 0..100 —
the date d = 12 equals the first event's exclusive end and yet is in the
returned set (the second event contributes it), contradicting the claim
that d = e is never included. -/
theorem booked_window_iff_cex :
    ((⟨true, some 10, some 12⟩ : Event) ∈
      processedEvents
        [PageResult.ok [⟨true, some 10, some 12⟩, ⟨true, some 12, some 14⟩] false]) ∧
    12 ∈ fetchLoop 0 100
        [PageResult.ok [⟨true, some 10, some 12⟩, ⟨true, some 12, some 14⟩] false] ∅ ∧
    ¬(10 ≤ 12 ∧ 12 < 12) := by
  decide

/-- C1 (amended): for every all-day event with parsed start s and end e
lying on a successfully processed page of the fetch, and every date d
with s ≤ d < e, d is in the returned booked set iff fromDate ≤ d ≤
toDate; moreover every date in the returned set lies inside the
fromDate..toDate window.  The event itself never contributes d = e,
though another event may. -/
theorem booked_window_iff (fromD toD : Nat) (pre : List (List Event))
    (evs : List Event) (nxt : Bool) (rest : List PageResult) (ev : Event)
    (s e : Nat) (hev : ev ∈ evs) (hall : ev.isAllDay = true)
    (hs : ev.startD = some s) (he : ev.endD = some e) :
    (∀ d, s ≤ d → d < e →
      (d ∈ fetchLoop fromD toD
          (pre.map (fun p => PageResult.ok p true) ++ PageResult.ok evs nxt :: rest) ∅ ↔
        fromD ≤ d ∧ d ≤ toD)) ∧
    (∀ d ∈ fetchLoop fromD toD
        (pre.map (fun p => PageResult.ok p true) ++ PageResult.ok evs nxt :: rest) ∅,
      fromD ≤ d ∧ d ≤ toD) := by
  have hback : ∀ d ∈ fetchLoop fromD toD
      (pre.map (fun p => PageResult.ok p true) ++ PageResult.ok evs nxt :: rest) ∅,
      fromD ≤ d ∧ d ≤ toD := by
    intro d hd
    rw [mem_fetchLoop] at hd
    rcases hd with hd | ⟨ev2, _, _, s2, e2, _, _, _, _, hf, ht⟩
    · exact absurd hd (Finset.not_mem_empty d)
    · exact ⟨hf, ht⟩
  refine ⟨?_, hback⟩
  intro d hsd hde
  constructor
  · exact fun hd => hback d hd
  · rintro ⟨hf, ht⟩
    rw [mem_fetchLoop]
    exact Or.inr ⟨ev, mem_processedEvents_of_page evs nxt rest ev hev pre,
      hall, s, e, hs, he, hsd, hde, hf, ht⟩

/-- C1 witness: a single-page fetch with one all-day event spanning days
10 to 12 inside the window 0..100. -/
theorem booked_window_iff_witness :
    ((⟨true, some 10, some 12⟩ : Event) ∈ [(⟨true, some 10, some 12⟩ : Event)]) ∧
    (∀ d, 10 ≤ d → d < 12 →
      (d ∈ fetchLoop 0 100 [PageResult.ok [⟨true, some 10, some 12⟩] false] ∅ ↔
        0 ≤ d ∧ d ≤ 100)) ∧
    (∀ d ∈ fetchLoop 0 100 [PageResult.ok [⟨true, some 10, some 12⟩] false] ∅,
      0 ≤ d ∧ d ≤ 100) := by
  have h := booked_window_iff 0 100 [] [⟨true, some 10, some 12⟩] false []
    ⟨true, some 10, some 12⟩ 10 12 (List.mem_singleton.mpr rfl) rfl rfl rfl
  exact ⟨List.mem_singleton.mpr rfl, h.1, h.2⟩

/-- C2: for the ballroom venue (lease boundary 2030-03-31), the
projection for year 2031 is empty, the projection for year 2030 never
contains a record dated after 2030-03-31, and in general a clamped scan
window with start past end yields an empty sequence. -/
theorem projection_lease_boundary (today : Date) (hv : ValidDate today)
    (booked : Finset Nat) :
    get_weekend_days_for_year "ballroom" 2031 today booked = [] ∧
    (∀ r ∈ get_weekend_days_for_year "ballroom" 2030 today booked,
      r.date ≤ Date.toOrdinal ⟨2030, 3, 31⟩) ∧
    (∀ (venue : String) (year : Nat) (t2 : Date) (b2 : Finset Nat),
      scanStart year t2 > scanEnd venue year →
      get_weekend_days_for_year venue year t2 b2 = []) := by
  refine ⟨?_, ?_, ?_⟩
  · have hgt : Date.toOrdinal ⟨2030, 3, 31⟩ < scanStart 2031 today := by
      unfold scanStart
      by_cases hy : 2031 = today.y
      · rw [if_pos hy]
        have h1 := jan1_le_toOrdinal today hv
        have h2 : Date.toOrdinal ⟨2030, 3, 31⟩ < Date.toOrdinal ⟨today.y, 1, 1⟩ := by
          rw [← hy]
          decide
        omega
      · rw [if_neg hy]
        decide
    show (if scanStart 2031 today > Date.toOrdinal ⟨2030, 3, 31⟩ then ([] : List DayRecord)
      else weekendLoop booked (scanEnd "ballroom" 2031)
        (scanEnd "ballroom" 2031 + 1 - scanStart 2031 today) (scanStart 2031 today)) = []
    rw [if_pos hgt]
  · intro r hr
    have hrw : get_weekend_days_for_year "ballroom" 2030 today booked =
        if scanStart 2030 today > Date.toOrdinal ⟨2030, 3, 31⟩ then ([] : List DayRecord)
        else weekendLoop booked (scanEnd "ballroom" 2030)
          (scanEnd "ballroom" 2030 + 1 - scanStart 2030 today) (scanStart 2030 today) := rfl
    rw [hrw] at hr
    by_cases hgt : scanStart 2030 today > Date.toOrdinal ⟨2030, 3, 31⟩
    · rw [if_pos hgt] at hr
      exact absurd hr (List.not_mem_nil r)
    · rw [if_neg hgt] at hr
      obtain ⟨d, _, hd2, _, rfl⟩ :=
        (mem_weekendLoop booked (scanEnd "ballroom" 2030)
          (scanEnd "ballroom" 2030 + 1 - scanStart 2030 today)
          (scanStart 2030 today) r (le_refl _)).mp hr
      have hse : scanEnd "ballroom" 2030 = Date.toOrdinal ⟨2030, 3, 31⟩ := by decide
      rw [hse] at hd2
      exact hd2
  · intro venue year t2 b2 hgt
    unfold get_weekend_days_for_year
    cases hle : VENUE_LEASE_END venue with
    | none =>
      exact weekendLoop_empty_of_gt b2 (scanEnd venue year) (scanStart year t2) hgt
    | some le =>
      by_cases hsl : scanStart year t2 > le
      · show (if scanStart year t2 > le then ([] : List DayRecord)
          else weekendLoop b2 (scanEnd venue year)
            (scanEnd venue year + 1 - scanStart year t2) (scanStart year t2)) = []
        rw [if_pos hsl]
      · show (if scanStart year t2 > le then ([] : List DayRecord)
          else weekendLoop b2 (scanEnd venue year)
            (scanEnd venue year + 1 - scanStart year t2) (scanStart year t2)) = []
        rw [if_neg hsl]
        exact weekendLoop_empty_of_gt b2 (scanEnd venue year) (scanStart year t2) hgt

/-- C2 witness: a concrete valid today (2026-01-01) and an empty booked
set instantiate the lease-boundary theorem. -/
theorem projection_lease_boundary_witness :
    ValidDate ⟨2026, 1, 1⟩ ∧
    (get_weekend_days_for_year "ballroom" 2031 ⟨2026, 1, 1⟩ ∅ = [] ∧
    (∀ r ∈ get_weekend_days_for_year "ballroom" 2030 ⟨2026, 1, 1⟩ ∅,
      r.date ≤ Date.toOrdinal ⟨2030, 3, 31⟩) ∧
    (∀ (venue : String) (year : Nat) (t2 : Date) (b2 : Finset Nat),
      scanStart year t2 > scanEnd venue year →
      get_weekend_days_for_year venue year t2 b2 = [])) :=
  ⟨by decide, projection_lease_boundary ⟨2026, 1, 1⟩ (by decide) ∅⟩

set_option maxRecDepth 100000 in
/-- C3 counterexample: with booked set {2026-06-12, 2026-06-13} and
today = 2026-01-01, the projection's record for 2026-06-14 (a Sunday not
in the booked set) has available = true, not available = false as the
claim states. -/
theorem june14_available_cex :
    ((⟨Date.toOrdinal ⟨2026, 6, 14⟩, "sunday", true⟩ : DayRecord) ∈
      get_weekend_days_for_year "garden" 2026 ⟨2026, 1, 1⟩
        {Date.toOrdinal ⟨2026, 6, 12⟩, Date.toOrdinal ⟨2026, 6, 13⟩}) ∧
    (∀ r ∈ get_weekend_days_for_year "garden" 2026 ⟨2026, 1, 1⟩
        {Date.toOrdinal ⟨2026, 6, 12⟩, Date.toOrdinal ⟨2026, 6, 13⟩},
      r.date = Date.toOrdinal ⟨2026, 6, 14⟩ → r.available = true) := by
  decide

/-- C3 (amended): with booked set {2026-06-12, 2026-06-13}, year 2026 and
any valid today no later than 2026-06-13, the record for 2026-06-13
(Saturday) has available = false, the record for 2026-06-14 (Sunday) has
available = true (the date is not in the booked set), and the record for
2026-06-19 (Friday) has available = true. -/
theorem june_weekend_scenario (today : Date) (hv : ValidDate today)
    (hle : today.toOrdinal ≤ Date.toOrdinal ⟨2026, 6, 13⟩) :
    ((⟨Date.toOrdinal ⟨2026, 6, 13⟩, "saturday", false⟩ : DayRecord) ∈
      get_weekend_days_for_year "garden" 2026 today
        {Date.toOrdinal ⟨2026, 6, 12⟩, Date.toOrdinal ⟨2026, 6, 13⟩}) ∧
    (∀ r ∈ get_weekend_days_for_year "garden" 2026 today
        {Date.toOrdinal ⟨2026, 6, 12⟩, Date.toOrdinal ⟨2026, 6, 13⟩},
      r.date = Date.toOrdinal ⟨2026, 6, 13⟩ → r.available = false) ∧
    ((⟨Date.toOrdinal ⟨2026, 6, 14⟩, "sunday", true⟩ : DayRecord) ∈
      get_weekend_days_for_year "garden" 2026 today
        {Date.toOrdinal ⟨2026, 6, 12⟩, Date.toOrdinal ⟨2026, 6, 13⟩}) ∧
    (∀ r ∈ get_weekend_days_for_year "garden" 2026 today
        {Date.toOrdinal ⟨2026, 6, 12⟩, Date.toOrdinal ⟨2026, 6, 13⟩},
      r.date = Date.toOrdinal ⟨2026, 6, 14⟩ → r.available = true) ∧
    ((⟨Date.toOrdinal ⟨2026, 6, 19⟩, "friday", true⟩ : DayRecord) ∈
      get_weekend_days_for_year "garden" 2026 today
        {Date.toOrdinal ⟨2026, 6, 12⟩, Date.toOrdinal ⟨2026, 6, 13⟩}) ∧
    (∀ r ∈ get_weekend_days_for_year "garden" 2026 today
        {Date.toOrdinal ⟨2026, 6, 12⟩, Date.toOrdinal ⟨2026, 6, 13⟩},
      r.date = Date.toOrdinal ⟨2026, 6, 19⟩ → r.available = true) := by
  have hstart : scanStart 2026 today ≤ Date.toOrdinal ⟨2026, 6, 13⟩ := by
    unfold scanStart
    by_cases hy : 2026 = today.y
    · rw [if_pos hy]
      exact hle
    · rw [if_neg hy]
      decide
  have hrw : get_weekend_days_for_year "garden" 2026 today
      {Date.toOrdinal ⟨2026, 6, 12⟩, Date.toOrdinal ⟨2026, 6, 13⟩} =
      weekendLoop {Date.toOrdinal ⟨2026, 6, 12⟩, Date.toOrdinal ⟨2026, 6, 13⟩}
        (scanEnd "garden" 2026) (scanEnd "garden" 2026 + 1 - scanStart 2026 today)
        (scanStart 2026 today) := rfl
  have hmem : ∀ d : Nat, scanStart 2026 today ≤ d → d ≤ scanEnd "garden" 2026 →
      (pyWeekday d = 4 ∨ pyWeekday d = 5 ∨ pyWeekday d = 6) →
      mkRecord {Date.toOrdinal ⟨2026, 6, 12⟩, Date.toOrdinal ⟨2026, 6, 13⟩} d ∈
        get_weekend_days_for_year "garden" 2026 today
          {Date.toOrdinal ⟨2026, 6, 12⟩, Date.toOrdinal ⟨2026, 6, 13⟩} := by
    intro d h1 h2 h3
    rw [hrw, mem_weekendLoop _ _ _ _ _ (le_refl _)]
    exact ⟨d, h1, h2, h3, rfl⟩
  have hshape : ∀ r ∈ get_weekend_days_for_year "garden" 2026 today
      {Date.toOrdinal ⟨2026, 6, 12⟩, Date.toOrdinal ⟨2026, 6, 13⟩},
      ∃ d, r = mkRecord {Date.toOrdinal ⟨2026, 6, 12⟩, Date.toOrdinal ⟨2026, 6, 13⟩} d := by
    intro r hr
    rw [hrw, mem_weekendLoop _ _ _ _ _ (le_refl _)] at hr
    obtain ⟨d, _, _, _, rfl⟩ := hr
    exact ⟨d, rfl⟩
  have h13 := hmem (Date.toOrdinal ⟨2026, 6, 13⟩) hstart (by decide) (by decide)
  have h14 := hmem (Date.toOrdinal ⟨2026, 6, 14⟩)
    (le_trans hstart (by decide)) (by decide) (by decide)
  have h19 := hmem (Date.toOrdinal ⟨2026, 6, 19⟩)
    (le_trans hstart (by decide)) (by decide) (by decide)
  rw [show mkRecord {Date.toOrdinal ⟨2026, 6, 12⟩, Date.toOrdinal ⟨2026, 6, 13⟩}
      (Date.toOrdinal ⟨2026, 6, 13⟩) =
      (⟨Date.toOrdinal ⟨2026, 6, 13⟩, "saturday", false⟩ : DayRecord) from by decide] at h13
  rw [show mkRecord {Date.toOrdinal ⟨2026, 6, 12⟩, Date.toOrdinal ⟨2026, 6, 13⟩}
      (Date.toOrdinal ⟨2026, 6, 14⟩) =
      (⟨Date.toOrdinal ⟨2026, 6, 14⟩, "sunday", true⟩ : DayRecord) from by decide] at h14
  rw [show mkRecord {Date.toOrdinal ⟨2026, 6, 12⟩, Date.toOrdinal ⟨2026, 6, 13⟩}
      (Date.toOrdinal ⟨2026, 6, 19⟩) =
      (⟨Date.toOrdinal ⟨2026, 6, 19⟩, "friday", true⟩ : DayRecord) from by decide] at h19
  refine ⟨h13, ?_, h14, ?_, h19, ?_⟩
  · intro r hr hdate
    obtain ⟨d, rfl⟩ := hshape r hr
    have hd : d = Date.toOrdinal ⟨2026, 6, 13⟩ := hdate
    rw [hd]
    decide
  · intro r hr hdate
    obtain ⟨d, rfl⟩ := hshape r hr
    have hd : d = Date.toOrdinal ⟨2026, 6, 14⟩ := hdate
    rw [hd]
    decide
  · intro r hr hdate
    obtain ⟨d, rfl⟩ := hshape r hr
    have hd : d = Date.toOrdinal ⟨2026, 6, 19⟩ := hdate
    rw [hd]
    decide

/-- C3 witness: the amended June 2026 scenario at the concrete today
2026-01-01. -/
theorem june_weekend_scenario_witness :
    ValidDate ⟨2026, 1, 1⟩ ∧
    Date.toOrdinal ⟨2026, 1, 1⟩ ≤ Date.toOrdinal ⟨2026, 6, 13⟩ ∧
    (((⟨Date.toOrdinal ⟨2026, 6, 13⟩, "saturday", false⟩ : DayRecord) ∈
      get_weekend_days_for_year "garden" 2026 ⟨2026, 1, 1⟩
        {Date.toOrdinal ⟨2026, 6, 12⟩, Date.toOrdinal ⟨2026, 6, 13⟩}) ∧
    (∀ r ∈ get_weekend_days_for_year "garden" 2026 ⟨2026, 1, 1⟩
        {Date.toOrdinal ⟨2026, 6, 12⟩, Date.toOrdinal ⟨2026, 6, 13⟩},
      r.date = Date.toOrdinal ⟨2026, 6, 13⟩ → r.available = false) ∧
    ((⟨Date.toOrdinal ⟨2026, 6, 14⟩, "sunday", true⟩ : DayRecord) ∈
      get_weekend_days_for_year "garden" 2026 ⟨2026, 1, 1⟩
        {Date.toOrdinal ⟨2026, 6, 12⟩, Date.toOrdinal ⟨2026, 6, 13⟩}) ∧
    (∀ r ∈ get_weekend_days_for_year "garden" 2026 ⟨2026, 1, 1⟩
        {Date.toOrdinal ⟨2026, 6, 12⟩, Date.toOrdinal ⟨2026, 6, 13⟩},
      r.date = Date.toOrdinal ⟨2026, 6, 14⟩ → r.available = true) ∧
    ((⟨Date.toOrdinal ⟨2026, 6, 19⟩, "friday", true⟩ : DayRecord) ∈
      get_weekend_days_for_year "garden" 2026 ⟨2026, 1, 1⟩
        {Date.toOrdinal ⟨2026, 6, 12⟩, Date.toOrdinal ⟨2026, 6, 13⟩}) ∧
    (∀ r ∈ get_weekend_days_for_year "garden" 2026 ⟨2026, 1, 1⟩
        {Date.toOrdinal ⟨2026, 6, 12⟩, Date.toOrdinal ⟨2026, 6, 13⟩},
      r.date = Date.toOrdinal ⟨2026, 6, 19⟩ → r.available = true)) :=
  ⟨by decide, by decide, june_weekend_scenario ⟨2026, 1, 1⟩ (by decide) (by decide)⟩

/-- C7 counterexample: with the garden calendar handle unconfigured
(empty string) but a refresh token and a fresh cached access token
present, a fetch whose response contains an all-day event still returns a
non-empty booked-date set — the empty handle merely routes the request to
the account's default calendar (calendar.py lines 86-89), so a configured
handle is not required for a non-empty result. -/
theorem empty_handle_cex :
    calendarIdFor ⟨"id", "sec", "rt", "", ""⟩ "garden" = "" ∧
    get_booked_dates "garden" 48 50 ⟨"id", "sec", "rt", "", ""⟩
        ⟨some "tok", some 1000000⟩ 0 TokenNet.netFail
        [PageResult.ok [⟨true, some 100, some 101⟩] false] = ({100}, true) := by
  decide

/-- C7 (amended): when the per-venue calendar handle is absent (empty),
the fetch does not degrade to an empty set; it targets the account's
default-calendar endpoint and proceeds normally, returning whatever
qualifying dates that calendar yields — and no crash occurs (the
function is total). -/
theorem empty_handle_default_calendar (startD endD : Nat) (cfg : TokenConfig)
    (st : TokenState) (now : Int) (net : TokenNet) (pages : List PageResult)
    (htok : tokenTruthy (get_access_token cfg st now net).1 = true) :
    graphEventsUrl "" = GRAPH_API_BASE ++ "/me/calendar/events" ∧
    fetch_calendar_events_graph "" startD endD cfg st now net pages =
      (fetchLoop startD endD pages ∅, true) := by
  refine ⟨rfl, ?_⟩
  show (if tokenTruthy (get_access_token cfg st now net).1 = true
      then (fetchLoop startD endD pages ∅, true)
      else ((∅ : Finset Nat), (get_access_token cfg st now net).2.2)) =
    (fetchLoop startD endD pages ∅, true)
  rw [if_pos htok]

/-- C7 witness: concrete configuration with a fresh cached token and an
empty calendar handle. -/
theorem empty_handle_default_calendar_witness :
    tokenTruthy (get_access_token ⟨"a", "b", "rt", "", ""⟩ ⟨some "tok", some 1000000⟩ 0
        TokenNet.netFail).1 = true ∧
    (graphEventsUrl "" = GRAPH_API_BASE ++ "/me/calendar/events" ∧
    fetch_calendar_events_graph "" 0 10 ⟨"a", "b", "rt", "", ""⟩
        ⟨some "tok", some 1000000⟩ 0 TokenNet.netFail
        [PageResult.ok [⟨true, some 3, some 5⟩] false] =
      (fetchLoop 0 10 [PageResult.ok [⟨true, some 3, some 5⟩] false] ∅, true)) :=
  ⟨by decide, empty_handle_default_calendar 0 10 ⟨"a", "b", "rt", "", ""⟩
    ⟨some "tok", some 1000000⟩ 0 TokenNet.netFail
    [PageResult.ok [⟨true, some 3, some 5⟩] false] (by decide)⟩

/-- C8 counterexample: the code's forward horizon is months_ahead * 30
days (1440 days for the refresh's 48), which is not the date 48 calendar
months ahead: from 2026-01-01, 48 months ahead is 2030-01-01, 1461 days
away, not 1440. -/
theorem fetch_horizon_cex :
    refreshMonthsAhead * 30 = 1440 ∧
    Date.toOrdinal ⟨2026, 1, 1⟩ + refreshMonthsAhead * 30 ≠
      (dateAfterMonths ⟨2026, 1, 1⟩ refreshMonthsAhead).toOrdinal := by
  decide

/-- C8 (amended): every refresh of a known venue (with a refresh token
configured) fetches booked dates over the window from today to
today + 48 * 30 = 1440 days — a 30-day-month approximation of the
spec's 48 months, slightly short of 48 calendar months. -/
theorem fetch_horizon (venue : String) (today : Nat) (cfg : TokenConfig)
    (st : TokenState) (now : Int) (net : TokenNet) (pages : List PageResult)
    (hvenue : venue ∈ CALENDARS) (hcfg : cfg.refreshToken ≠ "") :
    get_booked_dates venue refreshMonthsAhead today cfg st now net pages =
      fetch_calendar_events_graph (calendarIdFor cfg venue) today (today + 1440)
        cfg st now net pages := by
  unfold get_booked_dates
  rw [if_pos hvenue]
  show (if cfg.refreshToken = "" then ((∅ : Finset Nat), false)
      else fetch_calendar_events_graph (calendarIdFor cfg venue) today
        (today + refreshMonthsAhead * 30) cfg st now net pages) = _
  rw [if_neg hcfg]
  rfl

/-- C8 witness: concrete refresh fetch for the garden venue from day
ordinal 100. -/
theorem fetch_horizon_witness :
    ("garden" ∈ CALENDARS) ∧ (("rt" : String) ≠ "") ∧
    get_booked_dates "garden" refreshMonthsAhead 100 ⟨"a", "b", "rt", "g", ""⟩
        ⟨none, none⟩ 0 TokenNet.netFail [] =
      fetch_calendar_events_graph (calendarIdFor ⟨"a", "b", "rt", "g", ""⟩ "garden")
        100 (100 + 1440) ⟨"a", "b", "rt", "g", ""⟩ ⟨none, none⟩ 0 TokenNet.netFail [] :=
  ⟨by decide, by decide, fetch_horizon "garden" 100 ⟨"a", "b", "rt", "g", ""⟩
    ⟨none, none⟩ 0 TokenNet.netFail [] (by decide) (by decide)⟩

/-- C10: an event that is not flagged all-day, or whose start or end
dateTime is missing or empty, is skipped silently: the per-event step of
the fetch leaves the accumulated set unchanged and raises nothing. -/
theorem skip_filtered_events (fromD toD : Nat) (acc : Finset Nat) (ev : Event)
    (h : ev.isAllDay = false ∨ ev.startD = none ∨ ev.endD = none) :
    accumEvent fromD toD acc ev = acc := by
  unfold accumEvent
  rcases h with h | h | h
  · rw [h]
    rfl
  · rw [h]
    cases ev.isAllDay <;> cases ev.endD <;> rfl
  · rw [h]
    cases ev.isAllDay <;> cases ev.startD <;> rfl

/-- C10 witness: a non-all-day event with absent dateTime strings
contributes nothing at a concrete window and accumulator. -/
theorem skip_filtered_events_witness :
    ((⟨false, none, none⟩ : Event).isAllDay = false ∨
      (⟨false, none, none⟩ : Event).startD = none ∨
      (⟨false, none, none⟩ : Event).endD = none) ∧
    accumEvent 0 100 {7} ⟨false, none, none⟩ = {7} := by
  exact ⟨Or.inl rfl, skip_filtered_events 0 100 {7} ⟨false, none, none⟩ (Or.inl rfl)⟩

end MnCal
